import Mathlib

/-!
Verification development for the docker-trim instrumentation-and-analysis
pipeline (`init.py`).  The pure analysis functions are embedded shallowly:
strings are Lean `String`s, Python `set`s become `Finset String`, and the
regex `(openat|open|access|stat|faccessat|lstat|newfstatat|fstat|readlinkat|readlink|statx).*?"(.*?)"`
applied with `re.search` to each line is embedded as a structurally
recursive scan over the line's characters.  Effectful operations
(`exec_run`, container stop/remove, host file unlink) are embedded by
passing the outcome of the external effect in as data and returning the
produced value together with the list of emitted diagnostics.
-/

namespace DockerTrim

/-- The static noise-filtering policy table `COMMON_SYSTEM_DIRS` from
`init.py`. -/
def COMMON_SYSTEM_DIRS : List String :=
  ["/dev", "/proc", "/sys", "/tmp", "/var/log", "/run", "/var/run",
   "/var/tmp", "/var/lib", "/etc/ssl", "/usr/share/ca-certificates"]

/-- The alternatives of the syscall-name group of the parser's regex, in
the regex's alternation order. -/
def syscall_names : List String :=
  ["openat", "open", "access", "stat", "faccessat", "lstat", "newfstatat",
   "fstat", "readlinkat", "readlink", "statx"]

/-- Python `str.startswith`, embedded as a list-level check (avoiding
`String.startsWith`, whose position-based recursion does not reduce in the
kernel). -/
def startsWithStr (s pre : String) : Bool :=
  pre.data.isPrefixOf s.data

/-- Length of the first alternative of the syscall-name group that matches
at the head of `cs`, if any.  Mirrors how the regex engine tries the
alternation at a given start position. -/
def matchNameLen (cs : List Char) : Option Nat :=
  (syscall_names.find? (fun n => n.data.isPrefixOf cs)).map String.length

/-- After an opening quote has been consumed, collect the characters up to
the next `"` (the capture of group 2); `none` when no closing quote
exists. -/
def captureTail : List Char → Option (List Char)
  | [] => none
  | c :: rest =>
    if c = '"' then some []
    else (captureTail rest).map (fun p => c :: p)

/-- Embedding of the regex fragment `.*?"(.*?)"`: skip to the first `"`,
then capture up to the next `"`.  Matches exactly when at least two quote
characters remain, and captures the text between the first two of them. -/
def captureQuoted : List Char → Option (List Char)
  | [] => none
  | c :: rest =>
    if c = '"' then captureTail rest
    else captureQuoted rest

/-- Embedding of `regex.search(line)` for the parser's regex: scan
positions left to right; at the first position where a syscall-name
alternative matches and is followed (anywhere later) by a quoted string,
return group 2 (the text between the first two quotes after the name). -/
def searchLine : List Char → Option (List Char)
  | [] => none
  | c :: rest =>
    match matchNameLen (c :: rest) with
    | some n =>
      match captureQuoted ((c :: rest).drop n) with
      | some p => some p
      | none => searchLine rest
    | none => searchLine rest

/-- The contribution of one line of trace text to the access set: the
captured group-2 string, except that a failed search or an empty capture
(Python `if filepath:`) contributes nothing. -/
def lineContribution (line : String) : Option String :=
  match searchLine line.data with
  | some p => if p = [] then none else some (String.mk p)
  | none => none

/-- One iteration of the parser's `for line in log.splitlines()` loop. -/
def parseStep (acc : Finset String) (line : String) : Finset String :=
  match lineContribution line with
  | some p => insert p acc
  | none => acc

/-- The parser's loop over a list of lines, starting from the empty set. -/
def parseLines (lines : List String) : Finset String :=
  lines.foldl parseStep ∅

/-- Splitting of the log text into lines at `'\n'` (embedding of
`str.splitlines`, structurally recursive so it reduces in the kernel; a
trailing newline yields an extra empty line, which contributes nothing). -/
def splitLinesList : List Char → List (List Char)
  | [] => [[]]
  | c :: rest =>
    if c = '\n' then [] :: splitLinesList rest
    else
      match splitLinesList rest with
      | [] => [[c]]
      | l :: ls => (c :: l) :: ls

/-- `DockerTrim.parse_strace_file_accesses`: raw trace text to the set of
extracted file paths. -/
def parse_strace_file_accesses (log : String) : Finset String :=
  parseLines ((splitLinesList log.data).map String.mk)

/-- `DockerTrim.is_ignorable`: a path is noise when it is absolute and
begins with one of the `COMMON_SYSTEM_DIRS` prefixes. -/
def is_ignorable (filepath : String) : Bool :=
  if !(startsWithStr filepath "/") then false
  else COMMON_SYSTEM_DIRS.any (fun d => startsWithStr filepath d)

/-- `DockerTrim.filter_accessed_files`: keep the paths the policy does not
ignore. -/
def filter_accessed_files (accessed_files : Finset String) : Finset String :=
  accessed_files.filter (fun f => is_ignorable f = false)

/-- Result of `DockerTrim.compare_file_sets` (the Python dict with keys
`added_files` and `deleted_files`; the lists are duplicate-free and
unordered, hence `Finset`). -/
structure CompareResult where
  added_files : Finset String
  deleted_files : Finset String
deriving DecidableEq

/-- `DockerTrim.compare_file_sets`: pure set differences of the before and
after listings. -/
def compare_file_sets (before after : Finset String) : CompareResult :=
  ⟨after \ before, before \ after⟩

/-- A line mentions a recognized syscall name: some alternative of the
regex's name group matches at some position of the line. -/
def hasSyscallName : List Char → Bool
  | [] => false
  | c :: rest => (matchNameLen (c :: rest)).isSome || hasSyscallName rest

/-- Number of `"` characters on a line; a quoted argument requires at
least two of them. -/
def quoteCount (cs : List Char) : Nat :=
  cs.count '"'

/-- Shape of an image's declared `Entrypoint` or `Cmd` as returned by
image inspection: absent (`None`), a single string, or a sequence of
strings. -/
inductive CmdSpec where
  | absent : CmdSpec
  | single : String → CmdSpec
  | many : List String → CmdSpec

/-- The contribution of one half of the image configuration to
`command_to_wrap` in `init_container`: Python truthiness skips `None`, the
empty string and the empty list; a non-empty string is appended as one
element and a non-empty sequence is extended element-wise. -/
def cmdPart : CmdSpec → List String
  | CmdSpec.absent => []
  | CmdSpec.single s => if s = "" then [] else [s]
  | CmdSpec.many xs => if xs = [] then [] else xs

/-- The flattened `command_to_wrap` built by `init_container`: entrypoint
elements followed by command elements. -/
def command_to_wrap (ep cmd : CmdSpec) : List String :=
  cmdPart ep ++ cmdPart cmd

/-- Message of the `RuntimeError` raised when neither an entrypoint nor a
command can be determined (the spec's `ConfigurationError`). -/
def configurationErrorMsg : String :=
  "Could not determine the command to wrap from image. Does it have an ENTRYPOINT or CMD?"

/-- Entrypoint-rewriting slice of `DockerTrim.init_container`: flatten the
image's entrypoint and command; when the flattened command is empty, fail
before any container is created; otherwise the container is started with
the wrapper as entrypoint and this flattened command as its arguments. -/
def init_container (ep cmd : CmdSpec) : Except String (List String) :=
  if command_to_wrap ep cmd = [] then Except.error configurationErrorMsg
  else Except.ok (command_to_wrap ep cmd)

/-- Outcome of a `container.exec_run` call as seen by the caller: either
the pair (exit code, decoded output) or a raised exception. -/
inductive ExecOutcome where
  | result : Int → String → ExecOutcome
  | raised : String → ExecOutcome

/-- `DockerTrim.retrieve_strace_log` over the outcome of the in-container
`cat` of the fixed log path: the raw text on exit code 0, otherwise the
empty string together with the printed diagnostics. -/
def retrieve_strace_log : ExecOutcome → String × List String
  | ExecOutcome.result code out =>
    if code = 0 then (out, [])
    else ("", ["Error retrieving strace log from /tmp/strace.log. Exit code: " ++ toString code,
               "Output: " ++ out])
  | ExecOutcome.raised msg => ("", ["Exception retrieving strace log: " ++ msg])

/-- `DockerTrim.list_container_files` over the outcome of the in-container
`find <path> -type f`: the set of non-empty output lines on exit code 0,
otherwise the empty set together with the printed diagnostics. -/
def list_container_files : ExecOutcome → Finset String × List String
  | ExecOutcome.result code out =>
    if code = 0 then
      ((((splitLinesList out.data).map String.mk).filter (fun f => !(f == ""))).toFinset, [])
    else (∅, ["Error listing files in container. Exit code: " ++ toString code,
              "Output: " ++ out])
  | ExecOutcome.raised msg => (∅, ["Exception listing files in container: " ++ msg])

/-- Outcome of one external teardown call (`container.stop()`,
`container.remove(force=True)`, `os.unlink`): it succeeds, reports the
container as already gone, fails with an engine error, or raises some
other exception. -/
inductive StepResult where
  | ok : StepResult
  | notFound : StepResult
  | apiError : String → StepResult
  | unexpected : String → StepResult

/-- `DockerTrim.stop_container`: every outcome of the underlying stop call
is caught and converted to printed diagnostics; the function always
returns. -/
def stop_container : StepResult → List String
  | StepResult.ok => []
  | StepResult.notFound => ["Error: container not found during stop."]
  | StepResult.apiError m => ["Error stopping container: " ++ m]
  | StepResult.unexpected m => ["An unexpected error occurred while stopping container: " ++ m]

/-- `DockerTrim.remove_container`: every outcome of the underlying remove
call is caught and converted to printed diagnostics; the function always
returns. -/
def remove_container : StepResult → List String
  | StepResult.ok => []
  | StepResult.notFound => ["Error: container not found during remove."]
  | StepResult.apiError m => ["Error removing container: " ++ m]
  | StepResult.unexpected m => ["An unexpected error occurred while removing container: " ++ m]

/-- The mutable `DockerTrim` state the cleanup path touches: the host path
of the materialized wrapper script, if one was created. -/
structure TrimState where
  wrapper_script_path_host : Option String

/-- External-world outcomes the cleanup path can encounter: results of the
stop and remove calls, whether the host wrapper file still exists, and
whether `os.unlink` raises `OSError`. -/
structure CleanupEnv where
  stopResult : StepResult
  removeResult : StepResult
  wrapperExists : Bool
  unlinkFails : Bool

/-- The three teardown sub-steps of `DockerTrim.cleanup`. -/
inductive CleanupAction where
  | stop : CleanupAction
  | remove : CleanupAction
  | unlinkWrapper : CleanupAction
deriving DecidableEq

/-- `DockerTrim.cleanup`: when a container handle is present, attempt stop
then remove (each converting every failure to diagnostics); when a wrapper
host path is recorded and the file exists, attempt its deletion (an
`OSError` is caught and printed) and clear the recorded path.  Returns the
new state, the ordered list of attempted sub-steps and the diagnostics. -/
def cleanup (st : TrimState) (container : Option Unit) (env : CleanupEnv) :
    TrimState × List CleanupAction × List String :=
  let part1 : List CleanupAction × List String :=
    match container with
    | some _ => ([CleanupAction.stop, CleanupAction.remove],
                 stop_container env.stopResult ++ remove_container env.removeResult)
    | none => ([], [])
  match st.wrapper_script_path_host, env.wrapperExists with
  | some p, true =>
    let diag :=
      if env.unlinkFails then ["Error cleaning up temporary wrapper script " ++ p]
      else ["Cleaned up temporary wrapper script: " ++ p]
    (⟨none⟩, part1.1 ++ [CleanupAction.unlinkWrapper], part1.2 ++ diag)
  | _, _ => (st, part1.1, part1.2)

/-- Exit paths of the module-level session (`try`/`except`/`finally` at
the bottom of `init.py`): normal completion, a handled `RuntimeError`, or
an unexpected exception. -/
inductive SessionOutcome where
  | success : SessionOutcome
  | handledFailure : String → SessionOutcome
  | unexpectedFault : String → SessionOutcome

/-- The module-level `finally` block: whatever the session body's outcome,
`cleanup` is invoked on the session's state. -/
def run_session (outcome : SessionOutcome) (st : TrimState) (container : Option Unit)
    (env : CleanupEnv) :
    SessionOutcome × (TrimState × List CleanupAction × List String) :=
  (outcome, cleanup st container env)

theorem quoteCount_cons (c : Char) (rest : List Char) :
    quoteCount (c :: rest) = quoteCount rest + (if c = '"' then 1 else 0) := by
  simp [quoteCount, List.count_cons]

theorem captureTail_quote (cs : List Char) : ∀ p, captureTail cs = some p → 1 ≤ quoteCount cs := by
  induction cs with
  | nil => intro p h; simp [captureTail] at h
  | cons c rest ih =>
    intro p h
    by_cases hc : c = '"'
    · subst hc
      rw [quoteCount_cons]
      simp
    · rw [captureTail, if_neg hc] at h
      cases hq : captureTail rest with
      | none => rw [hq] at h; simp at h
      | some q =>
        have h1 := ih q hq
        have h2 : quoteCount rest ≤ quoteCount (c :: rest) := List.count_le_count_cons _ _ _
        omega

theorem captureQuoted_quotes (cs : List Char) : ∀ p, captureQuoted cs = some p → 2 ≤ quoteCount cs := by
  induction cs with
  | nil => intro p h; simp [captureQuoted] at h
  | cons c rest ih =>
    intro p h
    by_cases hc : c = '"'
    · subst hc
      rw [captureQuoted, if_pos rfl] at h
      have h1 := captureTail_quote rest p h
      rw [quoteCount_cons, if_pos rfl]
      omega
    · rw [captureQuoted, if_neg hc] at h
      have h1 := ih p h
      have h2 : quoteCount rest ≤ quoteCount (c :: rest) := List.count_le_count_cons _ _ _
      omega

theorem searchLine_hasName (cs : List Char) : ∀ p, searchLine cs = some p → hasSyscallName cs = true := by
  induction cs with
  | nil => intro p h; simp [searchLine] at h
  | cons c rest ih =>
    intro p h
    cases hm : matchNameLen (c :: rest) with
    | some n => simp [hasSyscallName, hm]
    | none =>
      rw [searchLine, hm] at h
      have h1 := ih p h
      simp [hasSyscallName, h1]

theorem searchLine_quotes (cs : List Char) : ∀ p, searchLine cs = some p → 2 ≤ quoteCount cs := by
  induction cs with
  | nil => intro p h; simp [searchLine] at h
  | cons c rest ih =>
    intro p h
    have h2 : quoteCount rest ≤ quoteCount (c :: rest) := List.count_le_count_cons _ _ _
    rw [searchLine] at h
    split at h
    · rename_i n hm
      split at h
      · rename_i q hq
        have h1 := captureQuoted_quotes _ q hq
        have h3 : quoteCount ((c :: rest).drop n) ≤ quoteCount (c :: rest) :=
          (List.drop_sublist n (c :: rest)).count_le _
        omega
      · have h1 := ih p h
        omega
    · have h1 := ih p h
      omega

theorem foldl_parseStep (lines : List String) : ∀ acc : Finset String,
    lines.foldl parseStep acc = acc ∪ (lines.filterMap lineContribution).toFinset := by
  induction lines with
  | nil => intro acc; simp
  | cons l ls ih =>
    intro acc
    rw [List.foldl_cons, ih (parseStep acc l), List.filterMap_cons]
    cases h : lineContribution l with
    | none => simp [parseStep, h]
    | some p =>
      simp only [parseStep, h, List.toFinset_cons]
      ext x
      simp only [Finset.mem_union, Finset.mem_insert, List.mem_toFinset]
      tauto

theorem parseLines_eq (lines : List String) :
    parseLines lines = (lines.filterMap lineContribution).toFinset := by
  rw [parseLines, foldl_parseStep]
  simp

theorem mem_parseLines (lines : List String) (s : String) :
    s ∈ parseLines lines ↔ ∃ l ∈ lines, lineContribution l = some s := by
  rw [parseLines_eq]
  simp [List.mem_filterMap]

/-- C1 counterexample: the line `open ""` contains the recognized syscall
name `open` followed by a quoted string (the regex search succeeds and
captures the empty string), yet `parse_strace_file_accesses` does not add
the captured string to the returned set — the claim as stated is false for
this line. -/
theorem C1_counterexample :
    searchLine ("open \"\"".data) = some [] ∧
    parse_strace_file_accesses "open \"\"" = ∅ := by
  decide

/-- C1 (amended): for every line of the input on which the regex search
succeeds (a recognized syscall name followed anywhere later on the line by
a quoted string, the capture being the first quoted string after the
name), the captured string is added to the returned set provided it is
non-empty; in particular `openat(AT_FDCWD, "/etc/passwd", O_RDONLY) = 3`
contributes exactly `/etc/passwd`, and of the two quoted strings in
`stat "a" "b"` the first is the one extracted. -/
theorem C1_extraction :
    (∀ (lines : List String) (line : String), line ∈ lines →
      ∀ p : List Char, searchLine line.data = some p → p ≠ [] →
        String.mk p ∈ parseLines lines) ∧
    parse_strace_file_accesses "openat(AT_FDCWD, \"/etc/passwd\", O_RDONLY) = 3"
      = {"/etc/passwd"} ∧
    parse_strace_file_accesses "stat \"a\" \"b\"" = {"a"} := by
  refine ⟨?_, by decide, by decide⟩
  intro lines line hline p hp hne
  rw [mem_parseLines]
  refine ⟨line, hline, ?_⟩
  rw [lineContribution, hp]
  show (if p = [] then none else some (String.mk p)) = some (String.mk p)
  rw [if_neg hne]

/-- C1 witness: the amended statement applied to the concrete example
line. -/
theorem C1_witness :
    String.mk ("/etc/passwd".data) ∈
      parseLines ["openat(AT_FDCWD, \"/etc/passwd\", O_RDONLY) = 3"] :=
  C1_extraction.1 ["openat(AT_FDCWD, \"/etc/passwd\", O_RDONLY) = 3"]
    "openat(AT_FDCWD, \"/etc/passwd\", O_RDONLY) = 3" (by decide)
    ("/etc/passwd".data) (by decide) (by decide)

/-- C3: a line mentioning a recognized syscall name but carrying fewer
than two quote characters (no quoted argument) contributes nothing; a line
carrying a quoted argument but no recognized syscall name contributes
nothing; and a line that contributes nothing can be inserted anywhere
without changing the parser's output (no line aborts parsing — the
embedding is a total function). -/
theorem C3_ignored_lines :
    (∀ line : String, hasSyscallName line.data = true → quoteCount line.data < 2 →
      lineContribution line = none) ∧
    (∀ line : String, 2 ≤ quoteCount line.data → hasSyscallName line.data = false →
      lineContribution line = none) ∧
    (∀ (pre post : List String) (line : String), lineContribution line = none →
      parseLines (pre ++ line :: post) = parseLines (pre ++ post)) := by
  refine ⟨?_, ?_, ?_⟩
  · intro line hname hq
    rw [lineContribution]
    cases h : searchLine line.data with
    | none => rfl
    | some p =>
      have := searchLine_quotes line.data p h
      omega
  · intro line hq hname
    rw [lineContribution]
    cases h : searchLine line.data with
    | none => rfl
    | some p =>
      have := searchLine_hasName line.data p h
      rw [this] at hname
      exact absurd hname (by simp)
  · intro pre post line hnone
    rw [parseLines_eq, parseLines_eq, List.filterMap_append, List.filterMap_append,
      List.filterMap_cons, hnone]

/-- C3 witness: the theorem applied to the concrete ignored lines
`openat(AT_FDCWD) = 3` (syscall name, no quoted argument) and
`close("/x") = 0` (quoted argument, no recognized syscall name). -/
theorem C3_witness :
    lineContribution "openat(AT_FDCWD) = 3" = none ∧
    lineContribution "close(\"/x\") = 0" = none ∧
    parseLines ["stat \"a\"", "close(\"/x\") = 0"] = parseLines ["stat \"a\""] :=
  ⟨C3_ignored_lines.1 "openat(AT_FDCWD) = 3" (by decide) (by decide),
   C3_ignored_lines.2.1 "close(\"/x\") = 0" (by decide) (by decide),
   C3_ignored_lines.2.2 ["stat \"a\""] [] "close(\"/x\") = 0"
     (C3_ignored_lines.2.1 "close(\"/x\") = 0" (by decide) (by decide))⟩

/-- C7: the parser is deterministic (identical input text yields an
identical output set) and order-independent (permuting the lines of the
input yields the identical output set). -/
theorem C7_order_independent :
    (∀ log : String, parse_strace_file_accesses log = parse_strace_file_accesses log) ∧
    (∀ lines1 lines2 : List String, lines1.Perm lines2 →
      parseLines lines1 = parseLines lines2) := by
  refine ⟨fun _ => rfl, fun lines1 lines2 h => ?_⟩
  rw [parseLines_eq, parseLines_eq]
  exact List.toFinset_eq_of_perm _ _ (h.filterMap lineContribution)

/-- C7 witness: the permutation part applied to a concrete two-line
transposition. -/
theorem C7_witness :
    parseLines ["stat \"a\"", "open \"b\""] = parseLines ["open \"b\"", "stat \"a\""] :=
  C7_order_independent.2 ["stat \"a\"", "open \"b\""] ["open \"b\"", "stat \"a\""]
    (List.Perm.swap "open \"b\"" "stat \"a\"" [])

/-- C10 (implicit): every member of the set returned by the parser is a
non-empty string — a line whose first captured quoted string is empty
contributes nothing to the result set. -/
theorem C10_nonempty_paths :
    (∀ (log : String) (s : String), s ∈ parse_strace_file_accesses log → s ≠ "") ∧
    (∀ line : String, searchLine line.data = some [] → lineContribution line = none) := by
  constructor
  · intro log s hs
    rw [parse_strace_file_accesses, mem_parseLines] at hs
    obtain ⟨l, _, hl⟩ := hs
    rw [lineContribution] at hl
    cases h : searchLine l.data with
    | none => rw [h] at hl; exact absurd hl (by simp)
    | some p =>
      rw [h] at hl
      have hl2 : (if p = [] then none else some (String.mk p)) = some s := hl
      by_cases hp : p = []
      · rw [if_pos hp] at hl2
        exact absurd hl2 (by simp)
      · rw [if_neg hp] at hl2
        have hs' : String.mk p = s := Option.some.inj hl2
        intro hcon
        apply hp
        have hd : (String.mk p).data = "".data := by rw [hs', hcon]
        exact hd
  · intro line h
    rw [lineContribution, h]
    show (if ([] : List Char) = [] then none else some (String.mk [])) = none
    rw [if_pos rfl]

/-- C10 witness: applied to the concrete example line (its contribution
`/etc/passwd` is non-empty) and to the line `open ""` whose captured
string is empty. -/
theorem C10_witness :
    ("/etc/passwd" : String) ≠ "" ∧ lineContribution "open \"\"" = none :=
  ⟨C10_nonempty_paths.1 "openat(AT_FDCWD, \"/etc/passwd\", O_RDONLY) = 3" "/etc/passwd"
     (by decide),
   C10_nonempty_paths.2 "open \"\"" (by decide)⟩

/-- C2: for every shape of entrypoint and command (each independently
absent, a single string, or a sequence), either both normalize to the
empty sequence and `init_container` fails with the configuration error
before any container is created, or the flattened command is non-empty
and the container is started with exactly the entrypoint elements followed
by the command elements. -/
theorem C2_entrypoint_rewrite : ∀ ep cmd : CmdSpec,
    (cmdPart ep = [] ∧ cmdPart cmd = [] ∧
      init_container ep cmd = Except.error configurationErrorMsg) ∨
    (cmdPart ep ++ cmdPart cmd ≠ [] ∧
      init_container ep cmd = Except.ok (cmdPart ep ++ cmdPart cmd)) := by
  intro ep cmd
  by_cases h : command_to_wrap ep cmd = []
  · left
    have h2 := h
    rw [command_to_wrap, List.append_eq_nil] at h2
    exact ⟨h2.1, h2.2, by rw [init_container, if_pos h]⟩
  · right
    have h2 := h
    rw [command_to_wrap] at h2
    exact ⟨h2, by rw [init_container, if_neg h, command_to_wrap]⟩

/-- C4: the classifier returns false for any path not starting with `/`,
and returns true exactly when the path starts with `/` and begins with one
of the `COMMON_SYSTEM_DIRS` prefixes; the spec's three concrete examples
behave as stated. -/
theorem C4_is_ignorable_spec :
    (∀ p : String, startsWithStr p "/" = false → is_ignorable p = false) ∧
    (∀ p : String, is_ignorable p = true ↔
      (startsWithStr p "/" = true ∧ ∃ d ∈ COMMON_SYSTEM_DIRS, startsWithStr p d = true)) ∧
    is_ignorable "/proc/1/status" = true ∧
    is_ignorable "/app/model.json" = false ∧
    is_ignorable "relative/path" = false := by
  refine ⟨?_, ?_, by decide, by decide, by decide⟩
  · intro p h
    rw [is_ignorable, h]
    rfl
  · intro p
    by_cases h : startsWithStr p "/"
    · rw [is_ignorable, h]
      simp [List.any_eq_true, h]
    · rw [is_ignorable, Bool.eq_false_iff.mpr h]
      simp

/-- C4 witness: the first part applied to the concrete relative path. -/
theorem C4_witness : is_ignorable "relative/path" = false :=
  C4_is_ignorable_spec.1 "relative/path" (by decide)

/-- C5: `filter_accessed_files` returns exactly the members of its input
the classifier does not ignore (the input set itself is untouched — the
embedding is a pure function of it), and on any trace text whose parsed
access set is exactly an ignorable `/tmp/x` and a relevant
`/app/config.yaml`, the pipeline returns exactly
`{"/app/config.yaml"}`. -/
theorem C5_filter_spec :
    (∀ (accessed : Finset String) (p : String),
      p ∈ filter_accessed_files accessed ↔ (p ∈ accessed ∧ is_ignorable p = false)) ∧
    (∀ log : String,
      parse_strace_file_accesses log = {"/tmp/x", "/app/config.yaml"} →
      filter_accessed_files (parse_strace_file_accesses log) = {"/app/config.yaml"}) := by
  constructor
  · intro accessed p
    rw [filter_accessed_files, Finset.mem_filter]
  · intro log h
    rw [h]
    decide

/-- C5 witness: the pipeline part applied to a concrete two-line trace
containing one ignorable and one relevant access. -/
theorem C5_witness :
    filter_accessed_files (parse_strace_file_accesses
      "openat(AT_FDCWD, \"/tmp/x\", O_RDONLY) = 3\nopenat(AT_FDCWD, \"/app/config.yaml\", O_RDONLY) = 3")
      = {"/app/config.yaml"} :=
  C5_filter_spec.2
    "openat(AT_FDCWD, \"/tmp/x\", O_RDONLY) = 3\nopenat(AT_FDCWD, \"/app/config.yaml\", O_RDONLY) = 3"
    (by decide)

/-- C6: `compare_file_sets` returns added = after minus before and
deleted = before minus after; the two results are disjoint and
duplicate-free, the function has no effect on its arguments (it is a pure
function of them), comparing a set with itself yields two empty sets, and
the concrete example from the spec holds. -/
theorem C6_compare_spec :
    (∀ (before after : Finset String) (p : String),
      (p ∈ (compare_file_sets before after).added_files ↔ (p ∈ after ∧ p ∉ before)) ∧
      (p ∈ (compare_file_sets before after).deleted_files ↔ (p ∈ before ∧ p ∉ after))) ∧
    (∀ before after : Finset String,
      Disjoint (compare_file_sets before after).added_files
        (compare_file_sets before after).deleted_files ∧
      (compare_file_sets before after).added_files.val.Nodup ∧
      (compare_file_sets before after).deleted_files.val.Nodup) ∧
    (∀ S : Finset String, compare_file_sets S S = ⟨∅, ∅⟩) ∧
    compare_file_sets {"a", "b", "c"} {"b", "c", "d"} = ⟨{"d"}, {"a"}⟩ := by
  refine ⟨?_, ?_, ?_, by decide⟩
  · intro before after p
    constructor
    · rw [compare_file_sets]
      exact Finset.mem_sdiff
    · rw [compare_file_sets]
      exact Finset.mem_sdiff
  · intro before after
    refine ⟨?_, Finset.nodup _, Finset.nodup _⟩
    rw [Finset.disjoint_left]
    intro p hp hp2
    rw [compare_file_sets] at hp hp2
    rw [Finset.mem_sdiff] at hp hp2
    exact hp.2 hp2.1
  · intro S
    rw [compare_file_sets, Finset.sdiff_self]

/-- C8: evidence retrieval is non-fatal — on a non-zero exit code or a
raised exception, `retrieve_strace_log` returns the empty string and
`list_container_files` returns the empty set, in both cases emitting a
diagnostic, while a zero exit code returns the raw output. -/
theorem C8_retrieval_nonfatal :
    (∀ (code : Int) (out : String), code ≠ 0 →
      (retrieve_strace_log (ExecOutcome.result code out)).1 = "" ∧
      (retrieve_strace_log (ExecOutcome.result code out)).2 ≠ [] ∧
      (list_container_files (ExecOutcome.result code out)).1 = ∅ ∧
      (list_container_files (ExecOutcome.result code out)).2 ≠ []) ∧
    (∀ msg : String,
      (retrieve_strace_log (ExecOutcome.raised msg)).1 = "" ∧
      (retrieve_strace_log (ExecOutcome.raised msg)).2 ≠ [] ∧
      (list_container_files (ExecOutcome.raised msg)).1 = ∅ ∧
      (list_container_files (ExecOutcome.raised msg)).2 ≠ []) ∧
    (∀ out : String, (retrieve_strace_log (ExecOutcome.result 0 out)).1 = out) := by
  refine ⟨?_, ?_, ?_⟩
  · intro code out h
    rw [retrieve_strace_log, list_container_files, if_neg h, if_neg h]
    refine ⟨rfl, by simp, rfl, by simp⟩
  · intro msg
    rw [retrieve_strace_log, list_container_files]
    refine ⟨rfl, by simp, rfl, by simp⟩
  · intro out
    rw [retrieve_strace_log, if_pos rfl]

/-- C8 witness: the theorem applied to a concrete failing exit code and a
concrete raised exception. -/
theorem C8_witness :
    (retrieve_strace_log (ExecOutcome.result 1 "no such file")).1 = "" ∧
    (list_container_files (ExecOutcome.raised "socket closed")).1 = ∅ :=
  ⟨(C8_retrieval_nonfatal.1 1 "no such file" (by decide)).1,
   (C8_retrieval_nonfatal.2.1 "socket closed").2.2.1⟩

/-- C9: on every exit path of the session the `finally` block invokes
`cleanup`, which attempts — in order — stop, then remove (when a container
handle exists), then deletion of the host-side wrapper file (when its path
is recorded and the file exists); the attempted sub-steps are independent
of the session outcome and of every sub-step's failure or success (a
failing sub-step only contributes diagnostics and never blocks the
remaining sub-steps). -/
theorem C9_cleanup_all_steps :
    ∀ (outcome : SessionOutcome) (st : TrimState) (container : Option Unit)
      (env : CleanupEnv),
      ((run_session outcome st container env).2.2.1 =
        (if container.isSome then [CleanupAction.stop, CleanupAction.remove] else []) ++
        (if st.wrapper_script_path_host.isSome ∧ env.wrapperExists = true
         then [CleanupAction.unlinkWrapper] else [])) ∧
      (∀ sr rr uf,
        (cleanup st container ⟨sr, rr, env.wrapperExists, uf⟩).2.1 =
          (cleanup st container env).2.1) ∧
      ((run_session outcome st container env).2.1.wrapper_script_path_host = none ∨
        st.wrapper_script_path_host = none ∨ env.wrapperExists = false) := by
  intro outcome st container env
  obtain ⟨sr0, rr0, we0, uf0⟩ := env
  obtain ⟨w⟩ := st
  refine ⟨?_, ?_, ?_⟩
  · cases container <;> cases w <;> cases we0 <;> cases uf0 <;>
      simp [run_session, cleanup]
  · intro sr rr uf
    cases container <;> cases w <;> cases we0 <;> cases uf <;> cases uf0 <;>
      simp [cleanup]
  · cases container <;> cases w <;> cases we0 <;> cases uf0 <;>
      simp [run_session, cleanup]

end DockerTrim
